import Mathlib

/-!
# Verification of the multi-night stacker core

A shallow embedding of the core of `multi_night_stacker.py` (set discovery,
per-set calibration command assembly, sequence combination by symbolic links,
registration/stacking command assembly, workflow orchestration, preset
save/load), with theorems checking the natural-language specification.

Modelling conventions, stated once here:

* Siril commands are lists of argument strings, exactly as passed to
  `SirilWorker.cmd`.  A worker-side action (`Act`) is either such a command,
  a log message with its colour, or a progress-bar percentage, in the order
  the Python code emits them.
* `QDoubleSpinBox` controls in this GUI all have `decimals = 1`, so every
  value they can hold is an integer number of tenths.  Spin values are
  therefore embedded as natural numbers of tenths (e.g. the value 8.5 is the
  tenths count 85); `str()` of such a value is `fmt1`, and Python's `int()`
  of it is truncation, i.e. division of the tenths by ten.  Numbers arriving
  from outside the controls (a preset file's JSON doubles) are arbitrary and
  embedded as rationals; `setValue` rounds them to one decimal and bounds
  them into the control's range.
* The filesystem is embedded only where the core reads or writes it: folder
  existence is a boolean per path, directory listings are lists of file
  names, and the combined-output folder is a map from link name to link
  target (`String → Option String`).
* The unbounded `while True` loop of `detect_sets` is embedded with an
  explicit fuel argument; theorems require the fuel to reach the first
  missing `set{n}` folder, which is where the Python loop stops.
-/

namespace MultiNightStacker

/-- A worker-side action: a Siril command (list of argument strings, as passed
to `SirilWorker.cmd`), a log message (text, colour), or a progress update. -/
inductive Act where
  | cmd : List String → Act
  | log : String → String → Act
  | progress : Nat → Act
deriving DecidableEq

/-! ## Path helpers (from `Path` arithmetic in the script) -/

/-- `working_path / set_name`. -/
def setPath (wd setName : String) : String := wd ++ "/" ++ setName

/-- `set_path / "flats"`. -/
def flatsPath (wd setName : String) : String := setPath wd setName ++ "/flats"

/-- `set_path / "lights"`. -/
def lightsPath (wd setName : String) : String := setPath wd setName ++ "/lights"

/-- `Path(self.working_dir) / set_name / "process"`. -/
def processDir (wd setName : String) : String := setPath wd setName ++ "/process"

/-- `Path(self.working_dir) / "multi_night_combined"`. -/
def combinedDir (wd : String) : String := wd ++ "/multi_night_combined"

/-! ## `detect_sets` (lines 300–333)

The loop tests `set{i}` existence starting at `i = 1`; an absent folder stops
the scan, a present folder without a `lights` subfolder is skipped (warning)
while the scan continues.  The filesystem is abstracted by the two predicates
`setExists i` (does `{wd}/set{i}` exist) and `hasLights i` (does
`{wd}/set{i}/lights` exist); the embedding returns the `detected_sets` list.
The `while True` loop is given fuel. -/
def detectSetsAux (setExists hasLights : Nat → Bool) : Nat → Nat → List String
  | 0, _ => []
  | fuel+1, i =>
    if setExists i then
      (if hasLights i then ["set" ++ Nat.repr i] else []) ++
        detectSetsAux setExists hasLights fuel (i+1)
    else []

/-- `MultiNightStackerGUI.detect_sets`, run with the given fuel. -/
def detect_sets (setExists hasLights : Nat → Bool) (fuel : Nat) : List String :=
  detectSetsAux setExists hasLights fuel 1

/-- Helper: the sets detected from index `i` up to the first missing index
`m` are exactly the indices of `[i, m)` that have a `lights` folder. -/
theorem detectSetsAux_eq (setExists hasLights : Nat → Bool) (m : Nat)
    (hm : setExists m = false) :
    ∀ (fuel i : Nat), i ≤ m → (∀ k, i ≤ k → k < m → setExists k = true) →
      m - i ≤ fuel →
      detectSetsAux setExists hasLights fuel i =
        ((List.range' i (m - i)).filter (fun k => hasLights k)).map
          (fun k => "set" ++ Nat.repr k) := by
  intro fuel
  induction fuel with
  | zero =>
    intro i him hex hfuel
    have : m - i = 0 := Nat.le_zero.mp hfuel
    simp [detectSetsAux, this]
  | succ fuel ih =>
    intro i him hex hfuel
    rcases Nat.eq_or_lt_of_le him with heq | hlt
    · subst heq
      simp [detectSetsAux, hm]
    · have hi : setExists i = true := hex i le_rfl hlt
      have hrange : m - i = (m - (i+1)) + 1 := by omega
      have hrec := ih (i+1) hlt (fun k hk1 hk2 => hex k (by omega) hk2) (by omega)
      rw [detectSetsAux, hi]
      simp only [if_true]
      rw [hrec, hrange, List.range'_succ]
      cases hhl : hasLights i <;> simp [hhl]

/-- **C2.** Discovery scans `set1, set2, …` in ascending order and stops at
the first `n` whose `set{n}` folder is absent (everything at or above the
first absent index is excluded, whatever exists there); a present `set{n}`
without a `lights` subfolder is skipped while scanning continues.  The result
is exactly the `set{k}` names for the indices `k` below the first absent
index that have a `lights` folder. -/
theorem detect_sets_spec (setExists hasLights : Nat → Bool) (m fuel : Nat)
    (h1 : 1 ≤ m) (hall : ∀ k, 1 ≤ k → k < m → setExists k = true)
    (hm : setExists m = false) (hfuel : m ≤ fuel) :
    detect_sets setExists hasLights fuel =
      ((List.range' 1 (m - 1)).filter (fun k => hasLights k)).map
        (fun k => "set" ++ Nat.repr k) :=
  detectSetsAux_eq setExists hasLights m hm fuel 1 h1
    (fun k hk1 hk2 => hall k hk1 hk2) (by omega)

/-- Witness for C2: a directory with `set1/lights`, `set2/lights`,
`set4/lights` and no `set3` yields exactly `[set1, set2]`. -/
theorem detect_sets_spec_witness :
    detect_sets (fun n => n == 1 || n == 2 || n == 4)
        (fun n => n == 1 || n == 2 || n == 4) 10 = ["set1", "set2"] := by
  have h := detect_sets_spec (fun n => n == 1 || n == 2 || n == 4)
    (fun n => n == 1 || n == 2 || n == 4) 3 10 (by decide)
    (fun k hk1 hk2 => by interval_cases k <;> rfl) (by decide) (by decide)
  rw [h]; decide

/-! ## Spin-box values

Every `QDoubleSpinBox` in this GUI has `decimals = 1`, so its value is an
integer count of tenths; `spinValue` is the rational number it denotes. -/

/-- The numeric value held by a one-decimal spin box storing `tenths` tenths. -/
def spinValue (tenths : Nat) : ℚ := (tenths : ℚ) / 10

/-- Python `str()` of a one-decimal spin value (e.g. `str(3.0) = "3.0"`). -/
def fmt1 (tenths : Nat) : String :=
  Nat.repr (tenths / 10) ++ "." ++ Nat.repr (tenths % 10)

/-! ## `process_set` (lines 460–500) -/

/-- `bias_coeff = int(self.bias_coeff_spin.value())` (line 488): Python
`int()` truncates the one-decimal spin value toward zero, i.e. divides the
tenths count by ten. -/
def bias_coeff (biasTenths : Nat) : Nat := biasTenths / 10

/-- The synthetic-bias argument `f'-bias="={bias_coeff}*$OFFSET"'`
(line 489). -/
def biasArg (biasTenths : Nat) : String :=
  "-bias=\"=" ++ Nat.repr (bias_coeff biasTenths) ++ "*$OFFSET\""

/-- `calib_args` as assembled in lines 489–495: base command with the
synthetic-bias argument, then `-flat=pp_flat_stacked` when flats are enabled
and the master flat file exists, then the debayer options when enabled. -/
def calib_args (biasTenths : Nat) (useFlats debayer masterFlatExists : Bool) :
    List String :=
  ["calibrate", "light", biasArg biasTenths] ++
    (if useFlats && masterFlatExists then ["-flat=pp_flat_stacked"] else []) ++
    (if debayer then ["-cfa", "-equalize_cfa", "-debayer"] else [])

/-- `MultiNightStackerGUI.process_set` (lines 460–500) as the list of
worker actions it performs.  `flatsExists` is the existence of
`{set}/flats`; `masterFlatExists` is the existence of
`{set}/process/pp_flat_stacked.fit` when the calibration command is built. -/
def process_set (wd setName : String) (useFlats debayer : Bool)
    (flatsExists masterFlatExists : Bool) (biasTenths : Nat) : List Act :=
  (if useFlats then
    (if flatsExists then
      [Act.log ("Processing flats for " ++ setName ++ "...") "blue",
       Act.cmd ["cd", flatsPath wd setName],
       Act.cmd ["convert", "flat", "-out=../process"],
       Act.cmd ["cd", "../process"],
       Act.cmd ["calibrate", "flat"],
       Act.cmd ["stack", "pp_flat", "rej", "3", "3", "-norm=mul"],
       Act.cmd ["cd", wd]]
     else
      [Act.log ("Warning: No flats folder in " ++ setName) "orange"])
   else []) ++
  [Act.log ("Processing lights for " ++ setName ++ "...") "blue",
   Act.cmd ["cd", lightsPath wd setName],
   Act.cmd ["convert", "light", "-out=../process"],
   Act.cmd ["cd", "../process"],
   Act.cmd (calib_args biasTenths useFlats debayer masterFlatExists),
   Act.cmd ["cd", wd],
   Act.log ("Completed " ++ setName) "green"]

/-! ## `register_combined` and `stack_combined` (lines 528–560) -/

/-- `MultiNightStackerGUI.register_combined` (lines 528–536). -/
def register_combined (wd seq : String) : List Act :=
  [Act.cmd ["cd", combinedDir wd],
   Act.log "Registering combined sequence..." "blue",
   Act.cmd ["register", seq],
   Act.cmd ["cd", wd]]

/-- `stack_args` as assembled in lines 547–556. -/
def stack_args (seq : String) (sigmaLowTenths sigmaHighTenths : Nat)
    (normalizeOutput rgbEqualize : Bool) : List String :=
  ["stack", "r_" ++ seq, "rej", fmt1 sigmaLowTenths, fmt1 sigmaHighTenths,
   "-norm=addscale"] ++
    (if normalizeOutput then ["-output_norm"] else []) ++
    (if rgbEqualize then ["-rgb_equal"] else []) ++
    ["-out=../" ++ seq ++ "_stacked"]

/-- `MultiNightStackerGUI.stack_combined` (lines 538–560). -/
def stack_combined (wd seq : String) (sigmaLowTenths sigmaHighTenths : Nat)
    (normalizeOutput rgbEqualize : Bool) : List Act :=
  [Act.cmd ["cd", combinedDir wd],
   Act.cmd (stack_args seq sigmaLowTenths sigmaHighTenths normalizeOutput rgbEqualize),
   Act.cmd ["cd", wd]]

/-- Resolution of a relative path (given as segments, `".."` meaning
parent) against a base directory (given as segments), as the filesystem
resolves the `-out=../…` argument from the directory set by the preceding
`cd`. -/
def resolveRel (base : List String) : List String → List String
  | [] => base
  | p :: rest =>
    if p = ".." then resolveRel base.dropLast rest
    else resolveRel (base ++ [p]) rest

/-- Joining path segments with `/`. -/
def joinSegs : List String → String
  | [] => ""
  | [s] => s
  | s :: s' :: rest => s ++ "/" ++ joinSegs (s' :: rest)

/-! ## Characters of `Nat.repr`

Helper facts used to separate serialized numbers from option flags: every
character of a printed natural number is a decimal digit. -/

/-- All characters `Nat.toDigitsCore 10` produces are decimal digits,
provided the accumulator holds only digits. -/
theorem toDigitsCore_digits :
    ∀ (fuel n : Nat) (ds : List Char), (∀ c ∈ ds, c.isDigit = true) →
      ∀ c ∈ Nat.toDigitsCore 10 fuel n ds, c.isDigit = true := by
  have hdigit : ∀ k, k < 10 → (Nat.digitChar k).isDigit = true := by decide
  intro fuel
  induction fuel with
  | zero => intro n ds hds c hc; exact hds c hc
  | succ fuel ih =>
    intro n ds hds c hc
    have hmod : (Nat.digitChar (n % 10)).isDigit = true :=
      hdigit _ (Nat.mod_lt _ (by norm_num))
    rw [Nat.toDigitsCore] at hc
    by_cases h10 : n / 10 = 0
    · simp only [h10, if_true] at hc
      rcases List.mem_cons.mp hc with hc | hc
      · subst hc; exact hmod
      · exact hds c hc
    · simp only [h10, if_false] at hc
      refine ih (n / 10) _ ?_ c hc
      intro x hx
      rcases List.mem_cons.mp hx with hx | hx
      · subst hx; exact hmod
      · exact hds x hx

/-- All characters of `Nat.repr n` are decimal digits. -/
theorem repr_data_digits (n : Nat) : ∀ c ∈ (Nat.repr n).data, c.isDigit = true := by
  intro c hc
  have hrepr : (Nat.repr n).data = Nat.toDigitsCore 10 (n + 1) n [] := rfl
  rw [hrepr] at hc
  exact toDigitsCore_digits (n + 1) n [] (by intro x hx; cases hx) c hc

/-- `Nat.toDigitsCore` never shrinks a nonempty accumulator to nothing. -/
theorem toDigitsCore_ne_nil :
    ∀ (fuel n : Nat) (ds : List Char), ds ≠ [] → Nat.toDigitsCore 10 fuel n ds ≠ [] := by
  intro fuel
  induction fuel with
  | zero => intro n ds h; exact h
  | succ fuel ih =>
    intro n ds h
    rw [Nat.toDigitsCore]
    by_cases h10 : n / 10 = 0
    · simp only [h10, if_true]; exact List.cons_ne_nil _ _
    · simp only [h10, if_false]
      exact ih (n / 10) _ (List.cons_ne_nil _ _)

/-- `Nat.repr n` is never the empty string. -/
theorem repr_data_ne_nil (n : Nat) : (Nat.repr n).data ≠ [] := by
  have hrepr : (Nat.repr n).data = Nat.toDigitsCore 10 (n + 1) n [] := rfl
  rw [hrepr, Nat.toDigitsCore]
  by_cases h10 : n / 10 = 0
  · simp only [h10, if_true]; exact List.cons_ne_nil _ _
  · simp only [h10, if_false]
    exact toDigitsCore_ne_nil n (n / 10) _ (List.cons_ne_nil _ _)

/-- `Nat.repr n` starts with a decimal digit. -/
theorem repr_head_digit (n : Nat) :
    ∃ c cs, (Nat.repr n).data = c :: cs ∧ c.isDigit = true := by
  cases h : (Nat.repr n).data with
  | nil => exact absurd h (repr_data_ne_nil n)
  | cons c cs =>
    exact ⟨c, cs, rfl, repr_data_digits n c (by rw [h]; exact List.mem_cons_self c cs)⟩

/-- A formatted one-decimal spin value starts with a decimal digit. -/
theorem fmt1_head_digit (t : Nat) :
    ∃ c cs, (fmt1 t).data = c :: cs ∧ c.isDigit = true := by
  obtain ⟨c, cs, hd, hdig⟩ := repr_head_digit (t / 10)
  have hdot : (".").data = ['.'] := rfl
  refine ⟨c, cs ++ ('.' :: (Nat.repr (t % 10)).data), ?_, hdig⟩
  simp [fmt1, String.data_append, hd, hdot]

/-- Two strings whose character lists start with distinct characters are
distinct. -/
theorem ne_of_data_head_ne {s t : String} {c₁ c₂ : Char} {l₁ l₂ : List Char}
    (h₁ : s.data = c₁ :: l₁) (h₂ : t.data = c₂ :: l₂) (hne : c₁ ≠ c₂) : s ≠ t := by
  intro he
  rw [he, h₂] at h₁
  exact hne ((List.cons.inj h₁).1.symm)

/-- Two strings whose character lists differ at the second character are
distinct. -/
theorem ne_of_data_second_ne {s t : String} {a b c d : Char} {l₁ l₂ : List Char}
    (h₁ : s.data = a :: b :: l₁) (h₂ : t.data = c :: d :: l₂) (hne : b ≠ d) : s ≠ t := by
  intro he
  rw [he, h₂] at h₁
  obtain ⟨-, h⟩ := List.cons.inj h₁
  exact hne ((List.cons.inj h).1.symm)

/-- Character-list shape of the registered sequence name `f"r_{seq_name}"`. -/
theorem rseq_data (seq : String) : ("r_" ++ seq).data = 'r' :: '_' :: seq.data := by
  have h : ("r_").data = ['r', '_'] := rfl
  rw [String.data_append, h]; rfl

/-- Character-list shape of the output argument `"-out=../" + seq + "_stacked"`. -/
theorem outArg_data (seq : String) :
    ("-out=../" ++ seq ++ "_stacked").data =
      '-' :: 'o' :: 'u' :: 't' :: '=' :: '.' :: '.' :: '/' ::
        (seq.data ++ ("_stacked").data) := by
  have h8 : ("-out=../").data = ['-','o','u','t','=','.','.','/'] := rfl
  rw [String.data_append, String.data_append, h8]
  simp

/-- Character-list shape of the synthetic-bias argument. -/
theorem biasArg_data (t : Nat) :
    (biasArg t).data =
      '-' :: 'b' :: (('i' :: 'a' :: 's' :: '=' :: '"' :: '=' :: []) ++
        ((Nat.repr (bias_coeff t)).data ++ ("*$OFFSET\"").data)) := by
  have hp : ("-bias=\"=").data = ['-','b','i','a','s','=','"','='] := rfl
  rw [biasArg, String.data_append, String.data_append, hp]
  simp

/-- A string starting with `'-'` is never a formatted spin value (those start
with a decimal digit). -/
theorem dash_ne_fmt1 (t : Nat) (s : String) (l : List Char)
    (hs : s.data = '-' :: l) : s ≠ fmt1 t := by
  obtain ⟨c, cs, hd, hdig⟩ := fmt1_head_digit t
  refine ne_of_data_head_ne hs hd ?_
  intro he
  rw [← he] at hdig
  exact absurd hdig (by decide)

/-- The master-flat argument is never the synthetic-bias argument. -/
theorem flat_ne_biasArg (t : Nat) : "-flat=pp_flat_stacked" ≠ biasArg t :=
  ne_of_data_second_ne (rfl : ("-flat=pp_flat_stacked").data = '-' :: 'f' :: _)
    (biasArg_data t) (by decide)

/-- The CFA option is never the synthetic-bias argument. -/
theorem cfa_ne_biasArg (t : Nat) : "-cfa" ≠ biasArg t :=
  ne_of_data_second_ne (rfl : ("-cfa").data = '-' :: 'c' :: _)
    (biasArg_data t) (by decide)

/-- The CFA-equalization option is never the synthetic-bias argument. -/
theorem eqcfa_ne_biasArg (t : Nat) : "-equalize_cfa" ≠ biasArg t :=
  ne_of_data_second_ne (rfl : ("-equalize_cfa").data = '-' :: 'e' :: _)
    (biasArg_data t) (by decide)

/-- The debayer option is never the synthetic-bias argument. -/
theorem debayer_ne_biasArg (t : Nat) : "-debayer" ≠ biasArg t :=
  ne_of_data_second_ne (rfl : ("-debayer").data = '-' :: 'd' :: _)
    (biasArg_data t) (by decide)

/-- Decomposition of a spin value into its truncation and its fractional
tenths. -/
theorem spinValue_eq (t : Nat) :
    spinValue t = ((t / 10 : Nat) : ℚ) + ((t % 10 : Nat) : ℚ) / 10 := by
  have h := Nat.div_add_mod t 10
  have h2 : (t : ℚ) = 10 * ((t / 10 : Nat) : ℚ) + ((t % 10 : Nat) : ℚ) := by
    exact_mod_cast congrArg (fun n : Nat => (n : ℚ)) h.symm
  rw [spinValue, h2]; ring

/-- Counterexample to C3 as stated: with a configured coefficient of 8.5
(85 tenths), the command serializes the coefficient as `8`, not `8.5`:
Python's `int()` truncates the spin value before it is interpolated. -/
theorem bias_coeff_counterexample :
    biasArg 85 = "-bias=\"=8*$OFFSET\"" ∧ (bias_coeff 85 : ℚ) ≠ spinValue 85 := by
  constructor
  · rfl
  · rw [spinValue]
    norm_num [bias_coeff]

/-- **C3 (amended).** The light-calibration command always contains the
synthetic-bias argument `-bias="={c}*$OFFSET"`, where the serialized
coefficient `c` is the configured bias coefficient truncated toward zero to
an integer (Python `int()` applied to the spin value); `c` equals the
configured coefficient exactly when that coefficient is a whole number. -/
theorem bias_coeff_spec (t : Nat) (useFlats debayer masterFlatExists : Bool) :
    biasArg t ∈ calib_args t useFlats debayer masterFlatExists ∧
    (bias_coeff t : ℚ) ≤ spinValue t ∧
    spinValue t < (bias_coeff t : ℚ) + 1 ∧
    ((bias_coeff t : ℚ) = spinValue t ↔ t % 10 = 0) := by
  have hmod : t % 10 < 10 := Nat.mod_lt _ (by norm_num)
  have hmodq : ((t % 10 : Nat) : ℚ) < 10 := by exact_mod_cast hmod
  have hmodq0 : (0 : ℚ) ≤ ((t % 10 : Nat) : ℚ) := by positivity
  refine ⟨by simp [calib_args], ?_, ?_, ?_⟩
  · rw [spinValue_eq, bias_coeff]
    linarith
  · rw [spinValue_eq, bias_coeff]
    linarith
  · rw [spinValue_eq, bias_coeff]
    constructor
    · intro h
      have hfrac : ((t % 10 : Nat) : ℚ) / 10 = 0 := by linarith
      field_simp at hfrac
      exact hfrac
    · intro h
      rw [h]
      norm_num

/-- **C6.** For every set and calibration configuration: the flat-production
stack command uses the fixed sigma bounds 3/3 and multiplicative
normalization (constants independent of the stacking configuration, which
`process_set` does not even receive) and is issued iff `useFlats` is true and
the set's `flats` folder exists; the light-calibration command includes the
master-flat argument iff `useFlats` is true and the master-flat file exists
in the set's `process` folder; and it includes the CFA-handling,
CFA-equalization and debayer options iff `debayer` is true. -/
theorem process_set_spec (wd setName : String)
    (useFlats debayer flatsExists masterFlatExists : Bool) (t : Nat) :
    (Act.cmd ["stack", "pp_flat", "rej", "3", "3", "-norm=mul"]
        ∈ process_set wd setName useFlats debayer flatsExists masterFlatExists t
      ↔ useFlats = true ∧ flatsExists = true) ∧
    Act.cmd (calib_args t useFlats debayer masterFlatExists)
        ∈ process_set wd setName useFlats debayer flatsExists masterFlatExists t ∧
    ("-flat=pp_flat_stacked" ∈ calib_args t useFlats debayer masterFlatExists
      ↔ useFlats = true ∧ masterFlatExists = true) ∧
    (("-cfa" ∈ calib_args t useFlats debayer masterFlatExists ∧
      "-equalize_cfa" ∈ calib_args t useFlats debayer masterFlatExists ∧
      "-debayer" ∈ calib_args t useFlats debayer masterFlatExists)
      ↔ debayer = true) := by
  cases useFlats <;> cases debayer <;> cases flatsExists <;> cases masterFlatExists <;>
    simp [process_set, calib_args, flat_ne_biasArg t, cfa_ne_biasArg t,
      eqcfa_ne_biasArg t, debayer_ne_biasArg t]

/-- The output-normalization flag is never the registered sequence name. -/
theorem output_norm_ne_rseq (seq : String) : "-output_norm" ≠ "r_" ++ seq :=
  ne_of_data_head_ne (rfl : ("-output_norm").data = '-' :: _) (rseq_data seq)
    (by decide)

/-- The RGB-equalization flag is never the registered sequence name. -/
theorem rgb_ne_rseq (seq : String) : "-rgb_equal" ≠ "r_" ++ seq :=
  ne_of_data_head_ne (rfl : ("-rgb_equal").data = '-' :: _) (rseq_data seq)
    (by decide)

/-- The output-normalization flag is never a formatted sigma threshold. -/
theorem output_norm_ne_fmt1 (t : Nat) : "-output_norm" ≠ fmt1 t :=
  dash_ne_fmt1 t _ _ rfl

/-- The RGB-equalization flag is never a formatted sigma threshold. -/
theorem rgb_ne_fmt1 (t : Nat) : "-rgb_equal" ≠ fmt1 t :=
  dash_ne_fmt1 t _ _ rfl

/-- The output-normalization flag is never the output-path argument. -/
theorem output_norm_ne_outArg (seq : String) :
    "-output_norm" ≠ "-out=../" ++ seq ++ "_stacked" := by
  intro he
  have h := congrArg String.data he
  rw [outArg_data] at h
  have hn : ("-output_norm").data = ['-','o','u','t','p','u','t','_','n','o','r','m'] := rfl
  rw [hn] at h
  simp at h

/-- The RGB-equalization flag is never the output-path argument. -/
theorem rgb_ne_outArg (seq : String) :
    "-rgb_equal" ≠ "-out=../" ++ seq ++ "_stacked" :=
  ne_of_data_second_ne (rfl : ("-rgb_equal").data = '-' :: 'r' :: _)
    (outArg_data seq) (by decide)

/-- A name ending in `_stacked.fit` is never the parent-directory segment. -/
theorem stacked_ne_dotdot (seq : String) : seq ++ "_stacked.fit" ≠ ".." := by
  intro h
  have hlen := congrArg (fun s => s.data.length) h
  simp only [String.data_append, List.length_append] at hlen
  have h12 : ("_stacked.fit").data.length = 12 := rfl
  have h2 : ("..").data.length = 2 := rfl
  rw [h12, h2] at hlen
  omega

/-- **C5.** The stacking stage issues a sigma-clip rejection stack over the
registered combined sequence `r_{seqName}` with the two configured
thresholds, always requests additive-scale normalization, requests
output-histogram normalization iff `normalizeOutput` and per-channel RGB
equalization iff `rgbEqualize` (each independent of the other), and directs
output via `-out=../{seqName}_stacked` — which, resolved from the
`multi_night_combined` directory entered by the preceding `cd` (the engine
appends the `.fit` extension), is `{workingDirectory}/{seqName}_stacked.fit`. -/
theorem stack_combined_spec (wd seq : String) (sl sh : Nat) (normOut rgbEq : Bool) :
    stack_combined wd seq sl sh normOut rgbEq =
      [Act.cmd ["cd", combinedDir wd],
       Act.cmd (stack_args seq sl sh normOut rgbEq),
       Act.cmd ["cd", wd]] ∧
    ["rej", fmt1 sl, fmt1 sh] <:+: stack_args seq sl sh normOut rgbEq ∧
    (stack_args seq sl sh normOut rgbEq)[1]? = some ("r_" ++ seq) ∧
    "-norm=addscale" ∈ stack_args seq sl sh normOut rgbEq ∧
    ("-output_norm" ∈ stack_args seq sl sh normOut rgbEq ↔ normOut = true) ∧
    ("-rgb_equal" ∈ stack_args seq sl sh normOut rgbEq ↔ rgbEq = true) ∧
    (stack_args seq sl sh normOut rgbEq).getLast? =
      some ("-out=../" ++ seq ++ "_stacked") ∧
    "-out=../" ++ seq ++ "_stacked" = "-out=" ++ joinSegs ["..", seq ++ "_stacked"] ∧
    (∀ wdSegs : List String,
      resolveRel (wdSegs ++ ["multi_night_combined"]) ["..", seq ++ "_stacked.fit"] =
        wdSegs ++ [seq ++ "_stacked.fit"]) := by
  refine ⟨rfl, ?_, ?_, ?_, ?_, ?_, ?_, ?_, ?_⟩
  · exact ⟨["stack", "r_" ++ seq],
      "-norm=addscale" ::
        ((if normOut then ["-output_norm"] else []) ++
         (if rgbEq then ["-rgb_equal"] else []) ++
         ["-out=../" ++ seq ++ "_stacked"]),
      by cases normOut <;> cases rgbEq <;> simp [stack_args]⟩
  · cases normOut <;> cases rgbEq <;> rfl
  · cases normOut <;> cases rgbEq <;> simp [stack_args]
  · cases normOut <;> cases rgbEq <;>
      simp [stack_args, output_norm_ne_rseq seq, output_norm_ne_fmt1,
        output_norm_ne_outArg seq]
  · cases normOut <;> cases rgbEq <;>
      simp [stack_args, rgb_ne_rseq seq, rgb_ne_fmt1, rgb_ne_outArg seq]
  · cases normOut <;> cases rgbEq <;> rfl
  · refine String.ext ?_
    simp [joinSegs, String.data_append]
  · intro wdSegs
    simp [resolveRel, List.dropLast_concat, stacked_ne_dotdot seq]

/-! ## `combine_sequences` (lines 502–526)

The combined-output folder is a map from link name to link target
(`String → Option String`); `sorted(...glob("pp_light_*.fit"))` is embedded
as a lexicographic sort of the per-set file listing, which the environment
supplies per set name. -/

/-- Python's `f"{c:05d}"`: decimal digits zero-padded to at least five. -/
def pad5 (n : Nat) : String :=
  String.mk (List.replicate (5 - (Nat.repr n).length) '0') ++ Nat.repr n

/-- The link name `f"{seq_name}_{frame_counter:05d}.fit"` (line 518). -/
def link_name (seq : String) (c : Nat) : String :=
  seq ++ "_" ++ pad5 c ++ ".fit"

/-- Python `sorted` over the glob result (line 511): lexicographic sort of
the file names. -/
def sortStrings (files : List String) : List String :=
  List.insertionSort (· ≤ ·) files

/-- One created link: the frame counter it was created at, the link name,
and the target file. -/
structure LinkRec where
  counter : Nat
  name : String
  target : String
deriving DecidableEq

/-- `link_name.unlink()` (line 520). -/
def fsUnlink (st : String → Option String) (n : String) : String → Option String :=
  fun k => if k = n then none else st k

/-- `link_name.symlink_to(fit_file)` (line 521): fails when a filesystem
entry of that name already exists. -/
def fsSymlink (st : String → Option String) (n t : String) :
    Option (String → Option String) :=
  if (st n).isSome then none
  else some (fun k => if k = n then some t else st k)

/-- Body of the inner loop (lines 519–521): remove an existing link of that
name first, then create the symbolic link. -/
def linkOne (st : String → Option String) (n t : String) :
    Option (String → Option String) :=
  fsSymlink (if (st n).isSome then fsUnlink st n else st) n t

/-- Inner loop of `combine_sequences` over one set's sorted calibrated
files (lines 517–522): threads the frame counter and the combined-folder
state, recording each created link. -/
def linkFiles (seq targetDir : String) :
    Nat → List String → (String → Option String) →
    Option ((String → Option String) × Nat × List LinkRec)
  | c, [], st => some (st, c, [])
  | c, f :: fs, st =>
    match linkOne st (link_name seq c) (targetDir ++ "/" ++ f) with
    | none => none
    | some st' =>
      match linkFiles seq targetDir (c+1) fs st' with
      | none => none
      | some (st'', c', ls) =>
        some (st'', c', ⟨c, link_name seq c, targetDir ++ "/" ++ f⟩ :: ls)

/-- Outer loop of `combine_sequences` over the detected sets
(lines 509–524); each set comes with its `pp_light_*.fit` glob listing. -/
def combineAux (wd seq : String) :
    Nat → List (String × List String) → (String → Option String) →
    Option ((String → Option String) × Nat × List LinkRec)
  | c, [], st => some (st, c, [])
  | c, (s, files) :: rest, st =>
    match linkFiles seq (processDir wd s) c (sortStrings files) st with
    | none => none
    | some (st', c', ls) =>
      match combineAux wd seq c' rest st' with
      | none => none
      | some (st'', c'', ls') => some (st'', c'', ls ++ ls')

/-- `MultiNightStackerGUI.combine_sequences` (lines 502–526): the frame
counter starts at 1; returns the final combined-folder state, the final
counter, and the created links, or `none` on a filesystem error. -/
def combine_sequences (wd seq : String) (sets : List (String × List String))
    (st : String → Option String) :
    Option ((String → Option String) × Nat × List LinkRec) :=
  combineAux wd seq 1 sets st

/-- Overwrite-update of the combined-folder state. -/
def setLink (st : String → Option String) (n t : String) : String → Option String :=
  fun k => if k = n then some t else st k

/-- Apply a list of link records as overwrites, in order. -/
def writeRecs (st : String → Option String) : List LinkRec → (String → Option String)
  | [] => st
  | r :: rs => writeRecs (setLink st r.name r.target) rs

/-- The link records the inner loop creates for one set. -/
def mkRecs (seq dir : String) : Nat → List String → List LinkRec
  | _, [] => []
  | c, f :: fs => ⟨c, link_name seq c, dir ++ "/" ++ f⟩ :: mkRecs seq dir (c+1) fs

/-- The link records of a whole run. -/
def allRecs (wd seq : String) : Nat → List (String × List String) → List LinkRec
  | _, [] => []
  | c, (s, files) :: rest =>
    mkRecs seq (processDir wd s) c (sortStrings files) ++
      allRecs wd seq (c + (sortStrings files).length) rest

/-- Unlink-then-symlink always succeeds and is exactly an overwrite, even
when a link of that name already exists. -/
theorem linkOne_eq (st : String → Option String) (n t : String) :
    linkOne st n t = some (setLink st n t) := by
  unfold linkOne fsSymlink fsUnlink setLink
  cases h : (st n).isSome with
  | true =>
    simp only [h, if_true, if_pos rfl, Option.isSome_none, Bool.false_eq_true,
      if_false, Option.some.injEq]
    funext k
    by_cases hk : k = n <;> simp [hk]
  | false =>
    simp [h]

/-- The inner loop always succeeds, advances the counter by the number of
files, and writes exactly its link records. -/
theorem linkFiles_eq (seq dir : String) :
    ∀ (fs : List String) (c : Nat) (st : String → Option String),
      linkFiles seq dir c fs st =
        some (writeRecs st (mkRecs seq dir c fs), c + fs.length,
          mkRecs seq dir c fs) := by
  intro fs
  induction fs with
  | nil => intro c st; simp [linkFiles, mkRecs, writeRecs]
  | cons f fs ih =>
    intro c st
    simp only [linkFiles, linkOne_eq, ih]
    simp [mkRecs, writeRecs]
    omega

/-- `writeRecs` distributes over append. -/
theorem writeRecs_append (l₁ l₂ : List LinkRec) :
    ∀ st : String → Option String,
      writeRecs st (l₁ ++ l₂) = writeRecs (writeRecs st l₁) l₂ := by
  induction l₁ with
  | nil => intro st; rfl
  | cons r rs ih => intro st; rw [List.cons_append, writeRecs, writeRecs, ih]

/-- The outer loop always succeeds, advances the counter by the total file
count, and writes exactly the run's link records. -/
theorem combineAux_eq (wd seq : String) :
    ∀ (sets : List (String × List String)) (c : Nat)
      (st : String → Option String),
      combineAux wd seq c sets st =
        some (writeRecs st (allRecs wd seq c sets),
          c + (sets.map (fun p => (sortStrings p.2).length)).sum,
          allRecs wd seq c sets) := by
  intro sets
  induction sets with
  | nil => intro c st; simp [combineAux, allRecs, writeRecs]
  | cons p rest ih =>
    intro c st
    obtain ⟨s, files⟩ := p
    simp only [combineAux, linkFiles_eq, ih]
    simp [allRecs, writeRecs_append]
    omega

/-- The counters of one set's link records are consecutive from the
starting counter. -/
theorem mkRecs_counters (seq dir : String) :
    ∀ (fs : List String) (c : Nat),
      (mkRecs seq dir c fs).map (fun r => r.counter) = List.range' c fs.length := by
  intro fs
  induction fs with
  | nil => intro c; simp [mkRecs]
  | cons f fs ih => intro c; simp [mkRecs, ih, List.range'_succ]

/-- Each link record's name is the link name of its counter. -/
theorem mkRecs_names (seq dir : String) :
    ∀ (fs : List String) (c : Nat), ∀ r ∈ mkRecs seq dir c fs,
      r.name = link_name seq r.counter := by
  intro fs
  induction fs with
  | nil => intro c r hr; cases hr
  | cons f fs ih =>
    intro c r hr
    rcases List.mem_cons.mp hr with hr | hr
    · subst hr; rfl
    · exact ih (c+1) r hr

/-- The targets of one set's link records are its files, prefixed with the
set's process directory, in order. -/
theorem mkRecs_targets (seq dir : String) :
    ∀ (fs : List String) (c : Nat),
      (mkRecs seq dir c fs).map (fun r => r.target) =
        fs.map (fun f => dir ++ "/" ++ f) := by
  intro fs
  induction fs with
  | nil => intro c; simp [mkRecs]
  | cons f fs ih => intro c; simp [mkRecs, ih]

/-- One set contributes one link record per sorted file. -/
theorem mkRecs_length (seq dir : String) :
    ∀ (fs : List String) (c : Nat), (mkRecs seq dir c fs).length = fs.length := by
  intro fs
  induction fs with
  | nil => intro c; rfl
  | cons f fs ih => intro c; simp [mkRecs, ih]

/-- The counters of a whole run's link records are consecutive from the
starting counter. -/
theorem allRecs_counters (wd seq : String) :
    ∀ (sets : List (String × List String)) (c : Nat),
      (allRecs wd seq c sets).map (fun r => r.counter) =
        List.range' c ((sets.map (fun p => (sortStrings p.2).length)).sum) := by
  intro sets
  induction sets with
  | nil => intro c; simp [allRecs]
  | cons p rest ih =>
    intro c
    obtain ⟨s, files⟩ := p
    rw [allRecs]
    rw [List.map_append, mkRecs_counters, ih]
    rw [List.range'_append_1]
    simp [Nat.add_comm]

/-- Each of a run's link records is named after its counter. -/
theorem allRecs_names (wd seq : String) :
    ∀ (sets : List (String × List String)) (c : Nat), ∀ r ∈ allRecs wd seq c sets,
      r.name = link_name seq r.counter := by
  intro sets
  induction sets with
  | nil => intro c r hr; cases hr
  | cons p rest ih =>
    intro c r hr
    obtain ⟨s, files⟩ := p
    rw [allRecs] at hr
    rcases List.mem_append.mp hr with hr | hr
    · exact mkRecs_names seq _ _ c r hr
    · exact ih _ r hr

/-- The targets of a run's link records are, set by set in `SetList` order,
the sorted calibrated files of each set. -/
theorem allRecs_targets (wd seq : String) :
    ∀ (sets : List (String × List String)) (c : Nat),
      (allRecs wd seq c sets).map (fun r => r.target) =
        (sets.map (fun p => (sortStrings p.2).map
          (fun f => processDir wd p.1 ++ "/" ++ f))).flatten := by
  intro sets
  induction sets with
  | nil => intro c; simp [allRecs]
  | cons p rest ih =>
    intro c
    obtain ⟨s, files⟩ := p
    rw [allRecs, List.map_append, mkRecs_targets, ih]
    simp

/-- A run creates one link per file. -/
theorem allRecs_length (wd seq : String) :
    ∀ (sets : List (String × List String)) (c : Nat),
      (allRecs wd seq c sets).length =
        (sets.map (fun p => (sortStrings p.2).length)).sum := by
  intro sets
  induction sets with
  | nil => intro c; rfl
  | cons p rest ih =>
    intro c
    obtain ⟨s, files⟩ := p
    rw [allRecs, List.length_append, mkRecs_length, ih]
    simp

/-- Looking up the state after a batch of overwrites: the last overwrite of
the key wins, and an untouched key keeps its prior value. -/
theorem writeRecs_apply (k : String) :
    ∀ (rs : List LinkRec) (st : String → Option String),
      writeRecs st rs k =
        match rs.reverse.find? (fun r => r.name == k) with
        | some r => some r.target
        | none => st k := by
  intro rs
  induction rs with
  | nil => intro st; rfl
  | cons r rs ih =>
    intro st
    rw [writeRecs, ih, List.reverse_cons, List.find?_append]
    cases h : rs.reverse.find? (fun r => r.name == k) with
    | some r' => simp [h]
    | none =>
      simp only [h, Option.none_or]
      by_cases hk : r.name = k
      · subst hk
        simp [List.find?, setLink]
      · have hk2 : ¬ k = r.name := fun h2 => hk h2.symm
        have hbeq : (r.name == k) = false := beq_eq_false_iff_ne.mpr hk
        simp [List.find?, hk2, hbeq, setLink]

/-- Re-applying the same batch of overwrites changes nothing. -/
theorem writeRecs_idem (rs : List LinkRec) (st : String → Option String) :
    writeRecs (writeRecs st rs) rs = writeRecs st rs := by
  funext k
  rw [writeRecs_apply, writeRecs_apply]
  cases h : rs.reverse.find? (fun r => r.name == k) with
  | some r => simp [h]
  | none => simp [h, writeRecs_apply]

/-- **C1.** For every sequence name and set list, combination succeeds and
creates exactly `sum(n_i)` links, whose counters run contiguously from 1
with no gaps and none reused, whose names are `{seqName}_{counter:05d}.fit`,
and whose targets are — set by set in `SetList` order, each set's files in
lexicographic order — the calibrated files; so an earlier set's links all
receive strictly smaller counters than any later set's. -/
theorem combine_sequences_spec (wd seq : String)
    (sets : List (String × List String)) (st : String → Option String) :
    ∃ st' ls,
      combine_sequences wd seq sets st =
        some (st', 1 + (sets.map (fun p => p.2.length)).sum, ls) ∧
      ls.length = (sets.map (fun p => p.2.length)).sum ∧
      ls.map (fun r => r.counter) = List.range' 1 ls.length ∧
      (∀ r ∈ ls, r.name = link_name seq r.counter) ∧
      ls.map (fun r => r.target) =
        (sets.map (fun p => (sortStrings p.2).map
          (fun f => processDir wd p.1 ++ "/" ++ f))).flatten ∧
      (∀ files : List String,
        (sortStrings files).Sorted (· ≤ ·) ∧
          List.Perm (sortStrings files) files) := by
  have hsum : (sets.map (fun p => (sortStrings p.2).length)).sum
      = (sets.map (fun p => p.2.length)).sum := by
    congr 1
    exact List.map_congr_left
      (fun p _ => (List.perm_insertionSort (· ≤ ·) p.2).length_eq)
  refine ⟨writeRecs st (allRecs wd seq 1 sets), allRecs wd seq 1 sets,
    ?_, ?_, ?_, ?_, ?_, ?_⟩
  · rw [combine_sequences, combineAux_eq, hsum]
  · rw [allRecs_length, hsum]
  · rw [allRecs_counters, allRecs_length]
  · exact allRecs_names wd seq sets 1
  · exact allRecs_targets wd seq sets 1
  · intro files
    exact ⟨List.sorted_insertionSort (· ≤ ·) files,
      List.perm_insertionSort (· ≤ ·) files⟩

/-- **C4.** Combination is idempotent: creating one link first removes any
existing entry of that name and then links it (an overwrite, never an
error), and a second full run over the same per-set calibrated files and
the same sequence name succeeds, recreates exactly the same links with the
same targets, and leaves the combined-folder state unchanged. -/
theorem combine_sequences_idem (wd seq : String)
    (sets : List (String × List String)) (st : String → Option String) :
    (∀ (st0 : String → Option String) (n t : String),
        linkOne st0 n t = some (setLink st0 n t)) ∧
    ∃ st1 c1 ls1,
      combine_sequences wd seq sets st = some (st1, c1, ls1) ∧
      combine_sequences wd seq sets st1 = some (st1, c1, ls1) := by
  refine ⟨linkOne_eq, writeRecs st (allRecs wd seq 1 sets),
    1 + (sets.map (fun p => (sortStrings p.2).length)).sum,
    allRecs wd seq 1 sets, ?_, ?_⟩
  · rw [combine_sequences, combineAux_eq]
  · rw [combine_sequences, combineAux_eq, writeRecs_idem]

/-! ## `process_workflow` (lines 411–458) and `SirilWorker` (lines 68–103) -/

/-- The environment of one workflow run: working directory, sequence name,
the detected sets, per-set filesystem facts, the configuration (as spin
tenths and checkbox booleans), and each set's `pp_light_*.fit` listing at
combination time. -/
structure WorkflowEnv where
  wd : String
  seqName : String
  sets : List String
  flatsExists : String → Bool
  masterFlatExists : String → Bool
  useFlats : Bool
  debayer : Bool
  biasTenths : Nat
  sigmaLowTenths : Nat
  sigmaHighTenths : Nat
  normalizeOutput : Bool
  rgbEqualize : Bool
  ppLightFiles : String → List String

/-- The per-set calibration loop (lines 429–436): header log, `process_set`,
then the progress report `base + (idx + 1) * progress_per_set`. -/
def calibLoop (e : WorkflowEnv) (pps : Nat) : Nat → List String → List Act
  | _, [] => []
  | idx, s :: rest =>
    (Act.log ("\n=== Processing " ++ s ++ " ===") "green" ::
      (process_set e.wd s e.useFlats e.debayer (e.flatsExists s)
        (e.masterFlatExists s) e.biasTenths ++
       [Act.progress (5 + (idx + 1) * pps)])) ++
      calibLoop e pps (idx + 1) rest

/-- The log lines `combine_sequences` emits while linking (lines 513–526);
the links themselves are `combine_sequences` above. -/
def combineActs (e : WorkflowEnv) : List Act :=
  (e.sets.map (fun s =>
    if (e.ppLightFiles s).length ≠ 0 then
      Act.log ("Linking " ++ Nat.repr (e.ppLightFiles s).length ++
        " files from " ++ s) "blue"
    else
      Act.log ("Warning: No pp_light files found in " ++ s) "orange")) ++
  [Act.log ("Created " ++
      Nat.repr ((e.sets.map (fun s => (e.ppLightFiles s).length)).sum) ++
      " symbolic links") "green"]

/-- `MultiNightStackerGUI.process_workflow` (lines 411–458): the ordered
worker actions of a run, as emitted when every step succeeds.
`progress_per_set = 60 // num_sets` (line 431; Lean's `60 / 0 = 0` matches
the `if num_sets > 0 else 0` guard). -/
def process_workflow (e : WorkflowEnv) : List Act :=
  [Act.log "=== Starting Multi-Night Processing ===" "green",
   Act.cmd ["cd", e.wd],
   Act.progress 5,
   Act.log ("Created directory: " ++ combinedDir e.wd) "blue"] ++
  calibLoop e (60 / e.sets.length) 0 e.sets ++
  [Act.log "\n=== Combining All Nights ===" "green"] ++
  combineActs e ++
  [Act.progress 70,
   Act.log "\n=== Registering Across All Nights ===" "green"] ++
  register_combined e.wd e.seqName ++
  [Act.progress 85,
   Act.log "\n=== Stacking Final Result ===" "green"] ++
  stack_combined e.wd e.seqName e.sigmaLowTenths e.sigmaHighTenths
    e.normalizeOutput e.rgbEqualize ++
  [Act.progress 100,
   Act.log "\n=== Processing Complete! ===" "green",
   Act.log ("Final result: " ++ e.wd ++ "/" ++ e.seqName ++ "_stacked.fit")
     "green",
   Act.cmd ["close"]]

/-- Projection of an action to an engine command. -/
def cmdAct : Act → Option (List String)
  | Act.cmd c => some c
  | _ => none

/-- The engine commands among a list of actions, in issue order. -/
def cmdsOf (acts : List Act) : List (List String) := acts.filterMap cmdAct

/-- Projection of an action to a progress percentage. -/
def progAct : Act → Option Nat
  | Act.progress p => some p
  | _ => none

/-- The progress percentages among a list of actions, in order. -/
def progressOf (acts : List Act) : List Nat := acts.filterMap progAct

@[simp] theorem cmdAct_cmd (c : List String) : cmdAct (Act.cmd c) = some c := rfl

@[simp] theorem cmdAct_log (m c : String) : cmdAct (Act.log m c) = none := rfl

@[simp] theorem cmdAct_progress (p : Nat) : cmdAct (Act.progress p) = none := rfl

@[simp] theorem progAct_cmd (c : List String) : progAct (Act.cmd c) = none := rfl

@[simp] theorem progAct_log (m c : String) : progAct (Act.log m c) = none := rfl

@[simp] theorem progAct_progress (p : Nat) : progAct (Act.progress p) = some p := rfl

/-- Executing a list of actions against the external engine
(`SirilWorker.cmd`, lines 94–103): the engine decides the fate of the
`k`-th issued command (`none` = success, `some msg` = raised failure).
Logs and progress reports always perform.  Returns the actions actually
performed — a failing command is still issued, everything after it is not,
as the exception propagates — and the first failure message, if any. -/
def execActs (engine : Nat → Option String) :
    List Act → Nat → List Act × Option String
  | [], _ => ([], none)
  | Act.cmd c :: rest, k =>
    match engine k with
    | some msg => ([Act.cmd c], some msg)
    | none =>
      let r := execActs engine rest (k+1)
      (Act.cmd c :: r.1, r.2)
  | a :: rest, k =>
    let r := execActs engine rest k
    (a :: r.1, r.2)

/-- `SirilWorker.run` (lines 82–92): exactly one terminal `finished` event;
on failure it carries the originating exception message. -/
def workerFinished (res : Option String) : List (Bool × String) :=
  match res with
  | some msg => [(false, msg)]
  | none => [(true, "Task completed successfully")]

/-- With an all-successful engine, every action performs. -/
theorem execActs_success (engine : Nat → Option String)
    (hengine : ∀ i, engine i = none) :
    ∀ (acts : List Act) (k : Nat), execActs engine acts k = (acts, none) := by
  intro acts
  induction acts with
  | nil => intro k; rfl
  | cons a rest ih =>
    intro k
    cases a with
    | cmd c => simp [execActs, hengine k, ih (k+1)]
    | log m col => simp [execActs, ih k]
    | progress p => simp [execActs, ih k]

/-- When the engine fails the `j`-th command issued, execution performs
exactly a prefix of the actions whose commands are the first `j + 1`
commands (the failing one included, nothing after it), and reports that
failure message. -/
theorem execActs_fail (engine : Nat → Option String) (msg : String) :
    ∀ (acts : List Act) (j k : Nat),
      (∀ i, i < j → engine (k + i) = none) → engine (k + j) = some msg →
      j < (cmdsOf acts).length →
      ∃ pre, execActs engine acts k = (pre, some msg) ∧
        pre <+: acts ∧ cmdsOf pre = (cmdsOf acts).take (j + 1) := by
  intro acts
  induction acts with
  | nil => intro j k hb hf hj; simp [cmdsOf] at hj
  | cons a rest ih =>
    intro j k hb hf hj
    cases a with
    | cmd c =>
      cases j with
      | zero =>
        have hk : engine k = some msg := by simpa using hf
        refine ⟨[Act.cmd c], ?_, ?_, ?_⟩
        · simp [execActs, hk]
        · exact ⟨rest, rfl⟩
        · simp [cmdsOf]
      | succ j' =>
        have hk : engine k = none := by
          have := hb 0 (Nat.succ_pos j')
          simpa using this
        have hb' : ∀ i, i < j' → engine ((k+1) + i) = none := by
          intro i hi
          have := hb (i+1) (by omega)
          simpa [Nat.add_assoc, Nat.add_comm 1 i] using this
        have hf' : engine ((k+1) + j') = some msg := by
          have h2 : (k+1) + j' = k + (j'+1) := by omega
          rw [h2]; exact hf
        have hj' : j' < (cmdsOf rest).length := by
          have : (cmdsOf (Act.cmd c :: rest)).length = (cmdsOf rest).length + 1 := by
            simp [cmdsOf]
          omega
        obtain ⟨pre, hexec, hpre, hcmds⟩ := ih j' (k+1) hb' hf' hj'
        refine ⟨Act.cmd c :: pre, ?_, ?_, ?_⟩
        · simp [execActs, hk, hexec]
        · obtain ⟨tl, htl⟩ := hpre
          exact ⟨tl, by rw [List.cons_append, htl]⟩
        · simp [cmdsOf] at hcmds ⊢
          rw [hcmds]
    | log m col =>
      have hj' : j < (cmdsOf rest).length := by simpa [cmdsOf] using hj
      obtain ⟨pre, hexec, hpre, hcmds⟩ := ih j k hb hf hj'
      refine ⟨Act.log m col :: pre, ?_, ?_, ?_⟩
      · simp [execActs, hexec]
      · obtain ⟨tl, htl⟩ := hpre
        exact ⟨tl, by rw [List.cons_append, htl]⟩
      · simpa [cmdsOf] using hcmds
    | progress p =>
      have hj' : j < (cmdsOf rest).length := by simpa [cmdsOf] using hj
      obtain ⟨pre, hexec, hpre, hcmds⟩ := ih j k hb hf hj'
      refine ⟨Act.progress p :: pre, ?_, ?_, ?_⟩
      · simp [execActs, hexec]
      · obtain ⟨tl, htl⟩ := hpre
        exact ⟨tl, by rw [List.cons_append, htl]⟩
      · simpa [cmdsOf] using hcmds

/-- Counterexample to C7 as stated: with `useFlats` true, a missing `flats`
folder but a master-flat file from a previous run still present in the
set's `process` folder, the run warns and continues — yet the
light-calibration command DOES include the flat correction, because the
`-flat` argument depends only on the file's existence. -/
theorem process_set_flats_counterexample :
    Act.log "Warning: No flats folder in set1" "orange"
        ∈ process_set "/w" "set1" true true false true 80 ∧
    Act.cmd (calib_args 80 true true true)
        ∈ process_set "/w" "set1" true true false true 80 ∧
    "-flat=pp_flat_stacked" ∈ calib_args 80 true true true :=
  ⟨by decide, by decide, by decide⟩

/-- **C7 (amended).** Any engine-command failure aborts the whole run: the
failing command is the last one issued, no later command of any stage or
set is issued, no retry occurs, and the single terminal `finished` event
carries the originating message.  A missing `flats` folder (with `useFlats`
true) only emits a warning and the run continues to its light-calibration
command with no flat stacking; that command omits the flat correction
unless a master-flat file (e.g. from a previous run) is present in the
set's `process` folder, in which case it is included. -/
theorem workflow_failure_spec (e : WorkflowEnv) (engine : Nat → Option String)
    (j : Nat) (msg : String)
    (hbefore : ∀ i, i < j → engine i = none)
    (hfail : engine j = some msg)
    (hj : j < (cmdsOf (process_workflow e)).length) :
    (∃ pre, execActs engine (process_workflow e) 0 = (pre, some msg) ∧
        pre <+: process_workflow e ∧
        cmdsOf pre = (cmdsOf (process_workflow e)).take (j + 1)) ∧
    workerFinished (some msg) = [(false, msg)] ∧
    (∀ s : String, e.useFlats = true → e.flatsExists s = false →
      Act.log ("Warning: No flats folder in " ++ s) "orange"
          ∈ process_set e.wd s e.useFlats e.debayer (e.flatsExists s)
              (e.masterFlatExists s) e.biasTenths ∧
      Act.cmd (calib_args e.biasTenths e.useFlats e.debayer (e.masterFlatExists s))
          ∈ process_set e.wd s e.useFlats e.debayer (e.flatsExists s)
              (e.masterFlatExists s) e.biasTenths ∧
      Act.cmd ["stack", "pp_flat", "rej", "3", "3", "-norm=mul"]
          ∉ process_set e.wd s e.useFlats e.debayer (e.flatsExists s)
              (e.masterFlatExists s) e.biasTenths ∧
      ("-flat=pp_flat_stacked"
          ∈ calib_args e.biasTenths e.useFlats e.debayer (e.masterFlatExists s)
        ↔ e.masterFlatExists s = true)) := by
  refine ⟨?_, rfl, ?_⟩
  · have hb0 : ∀ i, i < j → engine (0 + i) = none := by
      intro i hi; simpa using hbefore i hi
    have hf0 : engine (0 + j) = some msg := by simpa using hfail
    exact execActs_fail engine msg (process_workflow e) j 0 hb0 hf0 hj
  · intro s huf hfe
    rw [huf, hfe]
    cases hdeb : e.debayer <;> cases hmfe : e.masterFlatExists s <;>
      simp [process_set, calib_args, flat_ne_biasArg e.biasTenths]

/-- Concrete run for the C7 witness: one set with flats and master flat
present; the engine fails the third issued command. -/
def envC7 : WorkflowEnv :=
  ⟨"/w", "seq", ["set1"], fun _ => true, fun _ => true, true, true,
    80, 30, 30, true, true, fun _ => ["pp_light_00001.fit"]⟩

/-- Witness for C7: the engine failing the third command (`j = 2`) stops
execution right there, and the single terminal event carries the message. -/
theorem workflow_failure_spec_witness :
    (∃ pre, execActs (fun k => if k = 2 then some "boom" else none)
          (process_workflow envC7) 0 = (pre, some "boom") ∧
        pre <+: process_workflow envC7 ∧
        cmdsOf pre = (cmdsOf (process_workflow envC7)).take 3) ∧
    workerFinished (some "boom") = [(false, "boom")] := by
  have h := workflow_failure_spec envC7
    (fun k => if k = 2 then some "boom" else none) 2 "boom"
    (fun i hi => by interval_cases i <;> rfl) rfl (by decide)
  exact ⟨h.1, h.2.1⟩

/-- `process_set` reports no progress percentages. -/
theorem filterMap_progAct_process_set (wd s : String) (uf d fe mfe : Bool)
    (t : Nat) :
    (process_set wd s uf d fe mfe t).filterMap progAct = [] := by
  cases uf <;> cases fe <;> simp [process_set]

/-- Progress of the calibration loop: one report per set, evenly spaced by
`progress_per_set`. -/
theorem progressOf_calibLoop (e : WorkflowEnv) (pps : Nat) :
    ∀ (sets : List String) (idx : Nat),
      progressOf (calibLoop e pps idx sets) =
        (List.range sets.length).map (fun i => 5 + (idx + i + 1) * pps) := by
  intro sets
  induction sets with
  | nil => intro idx; rfl
  | cons s rest ih =>
    intro idx
    have hps := filterMap_progAct_process_set e.wd s e.useFlats e.debayer
      (e.flatsExists s) (e.masterFlatExists s) e.biasTenths
    have hih := ih (idx + 1)
    rw [calibLoop]
    simp only [progressOf] at hih ⊢
    rw [List.filterMap_append, hih]
    simp only [List.filterMap_cons, progAct_log, List.filterMap_append, hps,
      List.filterMap_cons, progAct_progress, List.filterMap_nil]
    rw [List.length_cons, List.range_succ_eq_map, List.map_cons, List.map_map]
    refine List.cons_eq_cons.mpr ⟨by ring_nf, ?_⟩
    refine List.map_congr_left ?_
    intro i hi
    have harg : idx + 1 + i + 1 = idx + (i + 1) + 1 := by omega
    simp [Function.comp, harg]

/-- The combination stage reports no progress percentages. -/
theorem filterMap_progAct_combineActs (e : WorkflowEnv) :
    (combineActs e).filterMap progAct = [] := by
  rw [combineActs, List.filterMap_append]
  refine List.append_eq_nil.mpr ⟨?_, by rfl⟩
  rw [List.filterMap_map]
  refine List.filterMap_eq_nil_iff.mpr ?_
  intro s hs
  by_cases h : e.ppLightFiles s = [] <;> simp [h]

/-- Registration reports no progress percentages. -/
theorem filterMap_progAct_register (wd seq : String) :
    (register_combined wd seq).filterMap progAct = [] := by
  simp [register_combined]

/-- Stacking reports no progress percentages. -/
theorem filterMap_progAct_stack (wd seq : String) (sl sh : Nat)
    (normOut rgbEq : Bool) :
    (stack_combined wd seq sl sh normOut rgbEq).filterMap progAct = [] := by
  simp [stack_combined]

/-- The progress reports of a full run, in order: 5 after setup, one evenly
spaced value per set, then 70, 85 and 100. -/
theorem progressOf_workflow (e : WorkflowEnv) :
    progressOf (process_workflow e) =
      5 :: (((List.range e.sets.length).map
        (fun i => 5 + (i + 1) * (60 / e.sets.length))) ++ [70, 85, 100]) := by
  have hcal := progressOf_calibLoop e (60 / e.sets.length) e.sets 0
  simp only [progressOf] at hcal ⊢
  rw [process_workflow]
  simp only [List.filterMap_append, hcal, filterMap_progAct_combineActs,
    filterMap_progAct_register, filterMap_progAct_stack]
  simp [Nat.zero_add]

/-- Each calibration progress value stays at or below 65. -/
theorem calib_progress_le_65 (N i : Nat) (hi : i < N) :
    5 + (i + 1) * (60 / N) ≤ 65 := by
  have h1 : (i + 1) * (60 / N) ≤ N * (60 / N) :=
    mul_le_mul_right' (by omega) (60 / N)
  have h2 : N * (60 / N) ≤ 60 := by
    rw [Nat.mul_comm]
    exact Nat.div_mul_le_self 60 N
  omega

/-- A map of a step-monotone function over `range` is a `≤`-chain. -/
theorem chain_le_map_range (f : Nat → Nat) (hmono : ∀ i, f i ≤ f (i + 1)) :
    ∀ n : Nat, List.Chain' (· ≤ ·) ((List.range n).map f) := by
  intro n
  cases n with
  | zero => simp
  | succ n =>
    rw [List.chain'_map, List.chain'_range_succ]
    intro m hm
    exact hmono m

/-- **C8.** In a successful run (every engine command succeeds) over at
least one set, every action performs, and the emitted progress sequence is
exactly: 5 after setup, then one value per set apportioned evenly in steps
of `60 / N` (each at most 65), then 70 after combination, 85 after
registration, and exactly 100 after stacking; the sequence is monotone
non-decreasing and stays within 0–100. -/
theorem workflow_progress_spec (e : WorkflowEnv) (engine : Nat → Option String)
    (_hN : 1 ≤ e.sets.length) (hengine : ∀ i, engine i = none) :
    (execActs engine (process_workflow e) 0).1 = process_workflow e ∧
    progressOf (process_workflow e) =
      5 :: (((List.range e.sets.length).map
        (fun i => 5 + (i + 1) * (60 / e.sets.length))) ++ [70, 85, 100]) ∧
    List.Chain' (· ≤ ·) (progressOf (process_workflow e)) ∧
    (∀ p ∈ progressOf (process_workflow e), 5 ≤ p ∧ p ≤ 100) ∧
    (progressOf (process_workflow e)).head? = some 5 ∧
    (progressOf (process_workflow e)).getLast? = some 100 ∧
    (∀ i, i < e.sets.length → 5 + (i + 1) * (60 / e.sets.length) ≤ 65) := by
  have hw := progressOf_workflow e
  have hmono : ∀ i, 5 + (i + 1) * (60 / e.sets.length) ≤
      5 + (i + 1 + 1) * (60 / e.sets.length) := by
    intro i
    have := mul_le_mul_right' (show i + 1 ≤ i + 1 + 1 by omega)
      (60 / e.sets.length)
    omega
  have hmemA : ∀ p ∈ (List.range e.sets.length).map
      (fun i => 5 + (i + 1) * (60 / e.sets.length)), 5 ≤ p ∧ p ≤ 65 := by
    intro p hp
    obtain ⟨i, hi, hpi⟩ := List.mem_map.mp hp
    have hilt : i < e.sets.length := List.mem_range.mp hi
    subst hpi
    exact ⟨by omega, calib_progress_le_65 _ i hilt⟩
  refine ⟨?_, hw, ?_, ?_, ?_, ?_, ?_⟩
  · rw [execActs_success engine hengine]
  · rw [hw, ← List.singleton_append]
    refine List.chain'_append.mpr ⟨by simp, ?_, ?_⟩
    · refine List.chain'_append.mpr ⟨?_, by norm_num [List.chain'_cons], ?_⟩
      · exact chain_le_map_range _ hmono e.sets.length
      · intro x hx y hy
        have hxa := List.mem_of_mem_getLast? hx
        have hx65 := (hmemA x hxa).2
        have hy70 : 70 = y := by simpa using hy
        omega
    · intro x hx y hy
      have hx5 : 5 = x := by simpa using hx
      have hya := List.mem_of_mem_head? hy
      rcases List.mem_append.mp hya with hya | hya
      · have := (hmemA y hya).1
        omega
      · have : y = 70 ∨ y = 85 ∨ y = 100 := by simpa using hya
        omega
  · rw [hw]
    intro p hp
    rcases List.mem_cons.mp hp with hp | hp
    · omega
    rcases List.mem_append.mp hp with hp | hp
    · have := hmemA p hp
      omega
    · have : p = 70 ∨ p = 85 ∨ p = 100 := by simpa using hp
      omega
  · rw [hw]; rfl
  · rw [hw]
    have hsplit : (5 : Nat) :: (((List.range e.sets.length).map
        (fun i => 5 + (i + 1) * (60 / e.sets.length))) ++ [70, 85, 100]) =
        (5 :: (((List.range e.sets.length).map
          (fun i => 5 + (i + 1) * (60 / e.sets.length))) ++ [70, 85])) ++
          [100] := by
      simp
    rw [hsplit, List.getLast?_concat]
  · intro i hi
    exact calib_progress_le_65 _ i hi

/-- Concrete run for the C8 witness: two sets, everything succeeding. -/
def envC8 : WorkflowEnv :=
  ⟨"/w", "seq", ["set1", "set2"], fun _ => true, fun _ => true, true, true,
    80, 30, 30, true, true, fun _ => ["pp_light_00001.fit"]⟩

/-- Witness for C8: with two sets the emitted progress values are
`[5, 35, 65, 70, 85, 100]`. -/
theorem workflow_progress_spec_witness :
    progressOf (process_workflow envC8) = [5, 35, 65, 70, 85, 100] ∧
    (execActs (fun _ => none) (process_workflow envC8) 0).1 =
      process_workflow envC8 := by
  have h := workflow_progress_spec envC8 (fun _ => none) (by decide)
    (fun i => rfl)
  refine ⟨?_, h.1⟩
  rw [h.2.1]; decide

/-! ## Presets (`save_preset` lines 578–598, `load_preset` lines 600–623)

A preset file is a JSON object; here it is a typed record of the eight
configuration keys, each optional (an absent key takes
`preset_data.get(key, default)`'s default path).  The spin boxes hold
one-decimal values (integer tenths), but the file's numeric values come
from `json.load` and are arbitrary doubles; they are embedded as
rationals (every binary double is a rational).  `QDoubleSpinBox.setValue`
rounds its argument so it can be displayed with `decimals = 1` — the
one-decimal text round-trip of a binary double breaks an exact half
toward even — and bounds it into the control's range. -/

/-- The eight persisted GUI fields (lines 580–589): sequence name, bias
coefficient, use-flats, debayer, sigma high/low, output normalization, RGB
equalization.  Spin values in tenths. -/
structure GuiConfig where
  sequenceName : String
  biasTenths : Nat
  useFlats : Bool
  debayer : Bool
  sigmaHighTenths : Nat
  sigmaLowTenths : Nat
  outputNormalization : Bool
  rgbEqualization : Bool
deriving DecidableEq

/-- A parsed preset JSON object: each of the eight keys may be absent;
numeric values are arbitrary numbers (doubles in the source, rationals
here — binary doubles are a subset of the rationals). -/
structure PresetData where
  sequence_name : Option String
  bias_coefficient : Option ℚ
  use_flats : Option Bool
  debayer : Option Bool
  sigma_high : Option ℚ
  sigma_low : Option ℚ
  output_normalization : Option Bool
  rgb_equalization : Option Bool
deriving DecidableEq

/-- `MultiNightStackerGUI.save_preset` (lines 578–598): writes every field;
the numeric fields hold the controls' `value()`, which is always an exact
one-decimal number. -/
def save_preset (c : GuiConfig) : PresetData :=
  { sequence_name := some c.sequenceName,
    bias_coefficient := some (spinValue c.biasTenths),
    use_flats := some c.useFlats,
    debayer := some c.debayer,
    sigma_high := some (spinValue c.sigmaHighTenths),
    sigma_low := some (spinValue c.sigmaLowTenths),
    output_normalization := some c.outputNormalization,
    rgb_equalization := some c.rgbEqualization }

/-- Rounding to the nearest integer with ties to even.  Applied to
`10 * v`, this is the rounding `QDoubleSpinBox` performs so that a
programmatically set value can be displayed with `decimals = 1` (the
one-decimal text round-trip of a binary double rounds an exact half to
even). -/
def roundHalfEven (x : ℚ) : ℤ :=
  if x - ⌊x⌋ < 1/2 then ⌊x⌋
  else if 1/2 < x - ⌊x⌋ then ⌊x⌋ + 1
  else if ⌊x⌋ % 2 = 0 then ⌊x⌋ else ⌊x⌋ + 1

/-- `QDoubleSpinBox.setValue` on a control with `decimals = 1` and range
`lo`–`hi` tenths: the argument is rounded to one decimal and bounded into
the control's range.  This GUI's bounds (0, 100, 0.1, 10.0) are themselves
exact tenths, so the order of rounding and bounding does not matter;
rounding first is used here.  Returns the stored value in tenths. -/
def spinSetValue (lo hi : Nat) (v : ℚ) : Nat :=
  (max (min (roundHalfEven (10 * v)) (hi : Int)) (lo : Int)).toNat

/-- `MultiNightStackerGUI.load_preset` (lines 600–623): each field is read
with `preset_data.get(key, default)` and applied to its control.
`todayName` stands for `datetime.now().strftime("%Y%m%d_seq")`, the
default sequence name.  The bias spin has range 0–100 (0–1000 tenths) and
both sigma spins 0.1–10.0 (1–100 tenths); the numeric defaults 8 and 3.0
are the literals of lines 612–616. -/
def load_preset (todayName : String) (p : PresetData) : GuiConfig :=
  { sequenceName := p.sequence_name.getD todayName,
    biasTenths := spinSetValue 0 1000 (p.bias_coefficient.getD 8),
    useFlats := p.use_flats.getD true,
    debayer := p.debayer.getD true,
    sigmaHighTenths := spinSetValue 1 100 (p.sigma_high.getD 3),
    sigmaLowTenths := spinSetValue 1 100 (p.sigma_low.getD 3),
    outputNormalization := p.output_normalization.getD true,
    rgbEqualization := p.rgb_equalization.getD true }

/-- Rounding an integer changes nothing. -/
theorem roundHalfEven_intCast (n : ℤ) : roundHalfEven (n : ℚ) = n := by
  rw [roundHalfEven]
  norm_num

/-- Rounding lands on the floor or the floor plus one. -/
theorem roundHalfEven_bounds (x : ℚ) :
    ⌊x⌋ ≤ roundHalfEven x ∧ roundHalfEven x ≤ ⌊x⌋ + 1 := by
  rw [roundHalfEven]
  split_ifs <;> omega

/-- Setting a control to an exact one-decimal value inside its range
stores it unchanged. -/
theorem spinSetValue_spinValue (lo hi t : Nat) (hlo : lo ≤ t) (hhi : t ≤ hi) :
    spinSetValue lo hi (spinValue t) = t := by
  have h10 : 10 * spinValue t = ((t : ℤ) : ℚ) := by
    rw [spinValue]; push_cast; field_simp
  rw [spinSetValue, h10, roundHalfEven_intCast, min_def, max_def]
  split_ifs <;> omega

/-- Setting a control to a value above its range stores the maximum. -/
theorem spinSetValue_high (lo hi : Nat) (v : ℚ) (hlh : lo ≤ hi)
    (h : (hi : ℚ) < 10 * v) : spinSetValue lo hi v = hi := by
  have hfl : (hi : ℤ) ≤ ⌊10 * v⌋ := Int.le_floor.mpr (by push_cast; exact h.le)
  have hb := roundHalfEven_bounds (10 * v)
  rw [spinSetValue, min_def, max_def]
  split_ifs <;> omega

/-- Setting a control to a value below its range stores the minimum. -/
theorem spinSetValue_low (lo hi : Nat) (v : ℚ) (hlh : lo ≤ hi)
    (h : 10 * v < (lo : ℚ)) : spinSetValue lo hi v = lo := by
  have hfl : ⌊10 * v⌋ < (lo : ℤ) := Int.floor_lt.mpr (by push_cast; exact h)
  have hb := roundHalfEven_bounds (10 * v)
  rw [spinSetValue, min_def, max_def]
  split_ifs <;> omega

/-- **C9.** Saving the eight configuration fields as a preset and loading
that preset restores every field, provided the numeric fields lie within
their controls' ranges (which the controls themselves guarantee); being
control values, they are exact tenths, so neither rounding nor clamping
alters them. -/
theorem preset_roundtrip (todayName : String) (c : GuiConfig)
    (hbias : c.biasTenths ≤ 1000)
    (hshl : 1 ≤ c.sigmaHighTenths) (hshh : c.sigmaHighTenths ≤ 100)
    (hsll : 1 ≤ c.sigmaLowTenths) (hslh : c.sigmaLowTenths ≤ 100) :
    load_preset todayName (save_preset c) = c := by
  obtain ⟨se, b, uf, d, sh, sl, no, rg⟩ := c
  simp only [load_preset, save_preset, Option.getD_some,
    GuiConfig.mk.injEq] at *
  refine ⟨trivial, ?_, trivial, trivial, ?_, ?_, trivial, trivial⟩
  · exact spinSetValue_spinValue 0 1000 b (Nat.zero_le b) hbias
  · exact spinSetValue_spinValue 1 100 sh hshl hshh
  · exact spinSetValue_spinValue 1 100 sl hsll hslh

/-- Witness for C9: a concrete in-range configuration round-trips. -/
theorem preset_roundtrip_witness :
    load_preset "20260101_seq"
        (save_preset ⟨"m31", 85, true, false, 30, 25, false, true⟩) =
      ⟨"m31", 85, true, false, 30, 25, false, true⟩ :=
  preset_roundtrip "20260101_seq" ⟨"m31", 85, true, false, 30, 25, false, true⟩
    (by decide) (by decide) (by decide) (by decide) (by decide)

/-- Counterexample to C10 as stated: a present numeric field is not always
applied as given.  Out of range, it is clamped: `bias_coefficient = 200.0`
loads as 100.0 (1000 tenths).  Even in range it is rounded to the
control's one decimal: `bias_coefficient = 8.25` loads as 8.2 (82
tenths), not 8.25. -/
theorem load_preset_counterexample :
    (load_preset "20260101_seq"
        ⟨none, some (200 : ℚ), none, none, none, none, none, none⟩).biasTenths
      = 1000 ∧
    (load_preset "20260101_seq"
        ⟨none, some (33/4 : ℚ), none, none, none, none, none, none⟩).biasTenths
      = 82 ∧
    spinValue (load_preset "20260101_seq"
        ⟨none, some (33/4 : ℚ), none, none, none, none, none, none⟩).biasTenths
      ≠ (33/4 : ℚ) := by
  have h82 : spinSetValue 0 1000 (33/4 : ℚ) = 82 := by
    have h10 : (10 : ℚ) * (33/4) = 165/2 := by norm_num
    have hfl : ⌊(165/2 : ℚ)⌋ = 82 := by
      rw [Int.floor_eq_iff]
      norm_num
    have hrhe : roundHalfEven (165/2 : ℚ) = 82 := by
      rw [roundHalfEven, hfl]
      norm_num
    rw [spinSetValue, h10, hrhe]
    decide
  refine ⟨?_, ?_, ?_⟩
  · show spinSetValue 0 1000 (200 : ℚ) = 1000
    exact spinSetValue_high 0 1000 200 (by omega) (by norm_num)
  · show spinSetValue 0 1000 (33/4 : ℚ) = 82
    exact h82
  · show spinValue (spinSetValue 0 1000 (33/4 : ℚ)) ≠ (33/4 : ℚ)
    rw [h82, spinValue]
    norm_num

/-- **C10 (amended).** Loading a valid preset JSON that omits keys
succeeds: each missing field takes its fixed default (today's-date
sequence name, bias 8, use-flats true, debayer true, sigma high 3.0, sigma
low 3.0, output normalization true, RGB equalization true).  Present text
and boolean fields are applied as given; a present numeric field is
applied through `setValue`, i.e. rounded to the control's one-decimal
resolution and bounded into its range — in particular it is applied as
given whenever it is an exact one-decimal value within the range, and a
value beyond either bound stores that bound. -/
theorem load_preset_spec (todayName : String) (p : PresetData) :
    ((p.sequence_name = none → (load_preset todayName p).sequenceName = todayName) ∧
     (∀ s, p.sequence_name = some s → (load_preset todayName p).sequenceName = s)) ∧
    ((p.bias_coefficient = none → (load_preset todayName p).biasTenths = 80) ∧
     (∀ v : ℚ, p.bias_coefficient = some v →
        (load_preset todayName p).biasTenths = spinSetValue 0 1000 v ∧
        (∀ t : Nat, v = spinValue t → t ≤ 1000 →
          (load_preset todayName p).biasTenths = t) ∧
        ((1000 : ℚ) < 10 * v → (load_preset todayName p).biasTenths = 1000) ∧
        (10 * v < 0 → (load_preset todayName p).biasTenths = 0))) ∧
    ((p.use_flats = none → (load_preset todayName p).useFlats = true) ∧
     (∀ b, p.use_flats = some b → (load_preset todayName p).useFlats = b)) ∧
    ((p.debayer = none → (load_preset todayName p).debayer = true) ∧
     (∀ b, p.debayer = some b → (load_preset todayName p).debayer = b)) ∧
    ((p.sigma_high = none → (load_preset todayName p).sigmaHighTenths = 30) ∧
     (∀ v : ℚ, p.sigma_high = some v →
        (load_preset todayName p).sigmaHighTenths = spinSetValue 1 100 v ∧
        (∀ t : Nat, v = spinValue t → 1 ≤ t → t ≤ 100 →
          (load_preset todayName p).sigmaHighTenths = t) ∧
        ((100 : ℚ) < 10 * v → (load_preset todayName p).sigmaHighTenths = 100) ∧
        (10 * v < 1 → (load_preset todayName p).sigmaHighTenths = 1))) ∧
    ((p.sigma_low = none → (load_preset todayName p).sigmaLowTenths = 30) ∧
     (∀ v : ℚ, p.sigma_low = some v →
        (load_preset todayName p).sigmaLowTenths = spinSetValue 1 100 v ∧
        (∀ t : Nat, v = spinValue t → 1 ≤ t → t ≤ 100 →
          (load_preset todayName p).sigmaLowTenths = t) ∧
        ((100 : ℚ) < 10 * v → (load_preset todayName p).sigmaLowTenths = 100) ∧
        (10 * v < 1 → (load_preset todayName p).sigmaLowTenths = 1))) ∧
    ((p.output_normalization = none →
        (load_preset todayName p).outputNormalization = true) ∧
     (∀ b, p.output_normalization = some b →
        (load_preset todayName p).outputNormalization = b)) ∧
    ((p.rgb_equalization = none → (load_preset todayName p).rgbEqualization = true) ∧
     (∀ b, p.rgb_equalization = some b →
        (load_preset todayName p).rgbEqualization = b)) := by
  have h8 : (8 : ℚ) = spinValue 80 := by rw [spinValue]; norm_num
  have h3 : (3 : ℚ) = spinValue 30 := by rw [spinValue]; norm_num
  refine ⟨⟨?_, ?_⟩, ⟨?_, ?_⟩, ⟨?_, ?_⟩, ⟨?_, ?_⟩, ⟨?_, ?_⟩, ⟨?_, ?_⟩,
    ⟨?_, ?_⟩, ⟨?_, ?_⟩⟩
  · intro h; simp [load_preset, h]
  · intro s h; simp [load_preset, h]
  · intro h
    simp only [load_preset, h, Option.getD_none]
    rw [h8]
    exact spinSetValue_spinValue 0 1000 80 (by omega) (by omega)
  · intro v h
    refine ⟨by simp [load_preset, h], ?_, ?_, ?_⟩
    · intro t ht hle
      simp only [load_preset, h, Option.getD_some]
      rw [ht]
      exact spinSetValue_spinValue 0 1000 t (Nat.zero_le t) hle
    · intro h1
      simp only [load_preset, h, Option.getD_some]
      exact spinSetValue_high 0 1000 v (by omega) (by exact_mod_cast h1)
    · intro h1
      simp only [load_preset, h, Option.getD_some]
      exact spinSetValue_low 0 1000 v (by omega) (by exact_mod_cast h1)
  · intro h; simp [load_preset, h]
  · intro b h; simp [load_preset, h]
  · intro h; simp [load_preset, h]
  · intro b h; simp [load_preset, h]
  · intro h
    simp only [load_preset, h, Option.getD_none]
    rw [h3]
    exact spinSetValue_spinValue 1 100 30 (by omega) (by omega)
  · intro v h
    refine ⟨by simp [load_preset, h], ?_, ?_, ?_⟩
    · intro t ht h1t hle
      simp only [load_preset, h, Option.getD_some]
      rw [ht]
      exact spinSetValue_spinValue 1 100 t h1t hle
    · intro h1
      simp only [load_preset, h, Option.getD_some]
      exact spinSetValue_high 1 100 v (by omega) (by exact_mod_cast h1)
    · intro h1
      simp only [load_preset, h, Option.getD_some]
      exact spinSetValue_low 1 100 v (by omega) (by exact_mod_cast h1)
  · intro h
    simp only [load_preset, h, Option.getD_none]
    rw [h3]
    exact spinSetValue_spinValue 1 100 30 (by omega) (by omega)
  · intro v h
    refine ⟨by simp [load_preset, h], ?_, ?_, ?_⟩
    · intro t ht h1t hle
      simp only [load_preset, h, Option.getD_some]
      rw [ht]
      exact spinSetValue_spinValue 1 100 t h1t hle
    · intro h1
      simp only [load_preset, h, Option.getD_some]
      exact spinSetValue_high 1 100 v (by omega) (by exact_mod_cast h1)
    · intro h1
      simp only [load_preset, h, Option.getD_some]
      exact spinSetValue_low 1 100 v (by omega) (by exact_mod_cast h1)
  · intro h; simp [load_preset, h]
  · intro b h; simp [load_preset, h]
  · intro h; simp [load_preset, h]
  · intro b h; simp [load_preset, h]

/-- Witness for C10: loading the empty preset object fills every field
with its default, and an in-range exact-tenth present value is applied as
given. -/
theorem load_preset_spec_witness :
    (load_preset "20260101_seq"
        ⟨none, none, none, none, none, none, none, none⟩).sequenceName
      = "20260101_seq" ∧
    (load_preset "20260101_seq"
        ⟨none, none, none, none, none, none, none, none⟩).biasTenths = 80 ∧
    (load_preset "20260101_seq"
        ⟨none, none, none, none, none, none, none, none⟩).sigmaHighTenths = 30 ∧
    (load_preset "20260101_seq"
        ⟨none, none, none, none, none, none, none, none⟩).useFlats = true ∧
    (load_preset "20260101_seq"
        ⟨none, some (17/2 : ℚ), none, none, none, none, none, none⟩).biasTenths
      = 85 := by
  have h := load_preset_spec "20260101_seq"
    ⟨none, none, none, none, none, none, none, none⟩
  have h2 := load_preset_spec "20260101_seq"
    ⟨none, some (17/2 : ℚ), none, none, none, none, none, none⟩
  refine ⟨h.1.1 rfl, h.2.1.1 rfl, h.2.2.2.2.1.1 rfl, h.2.2.1.1 rfl, ?_⟩
  exact (h2.2.1.2 (17/2) rfl).2.1 85 (by rw [spinValue]; norm_num) (by omega)

/-- Witness for C1: two sets with two and one calibrated files yield three
links and the final counter 4. -/
theorem combine_sequences_spec_witness :
    ∃ st' ls, combine_sequences "/w" "s"
        [("set1", ["b.fit", "a.fit"]), ("set2", ["c.fit"])] (fun _ => none) =
        some (st', 4, ls) ∧ ls.length = 3 := by
  obtain ⟨st', ls, h1, h2, -⟩ :=
    combine_sequences_spec "/w" "s"
      [("set1", ["b.fit", "a.fit"]), ("set2", ["c.fit"])] (fun _ => none)
  exact ⟨st', ls, h1, h2⟩

/-- Witness for C4: a concrete second run reproduces the first run's links
and state. -/
theorem combine_sequences_idem_witness :
    ∃ st1 c1 ls1, combine_sequences "/w" "s" [("set1", ["a.fit"])]
        (fun _ => none) = some (st1, c1, ls1) ∧
      combine_sequences "/w" "s" [("set1", ["a.fit"])] st1 =
        some (st1, c1, ls1) :=
  (combine_sequences_idem "/w" "s" [("set1", ["a.fit"])] (fun _ => none)).2

/-- Witness for C3 (amended), at the configured coefficient 8.5. -/
theorem bias_coeff_spec_witness :
    biasArg 85 ∈ calib_args 85 true true true ∧
    (bias_coeff 85 : ℚ) ≤ spinValue 85 ∧
    spinValue 85 < (bias_coeff 85 : ℚ) + 1 ∧
    ((bias_coeff 85 : ℚ) = spinValue 85 ↔ 85 % 10 = 0) :=
  bias_coeff_spec 85 true true true

/-- Witness for C5: with output normalization on and RGB equalization off,
the flags appear accordingly and the command names the registered
sequence. -/
theorem stack_combined_spec_witness :
    "-output_norm" ∈ stack_args "s" 25 30 true false ∧
    "-rgb_equal" ∉ stack_args "s" 25 30 true false ∧
    (stack_args "s" 25 30 true false)[1]? = some "r_s" := by
  have h := stack_combined_spec "/w" "s" 25 30 true false
  refine ⟨h.2.2.2.2.1.mpr rfl, ?_, h.2.2.1⟩
  intro hm
  exact absurd (h.2.2.2.2.2.1.mp hm) (by decide)

/-- Witness for C6: with flats enabled and present, master flat present and
debayer on, the flat stack command is issued and the calibration command
carries the flat and CFA options. -/
theorem process_set_spec_witness :
    Act.cmd ["stack", "pp_flat", "rej", "3", "3", "-norm=mul"]
        ∈ process_set "/w" "set1" true true true true 80 ∧
    "-flat=pp_flat_stacked" ∈ calib_args 80 true true true ∧
    "-cfa" ∈ calib_args 80 true true true := by
  have h := process_set_spec "/w" "set1" true true true true 80
  exact ⟨h.1.mpr ⟨rfl, rfl⟩, h.2.2.1.mpr ⟨rfl, rfl⟩, (h.2.2.2.mpr rfl).1⟩
